import Mathlib

/-!
Verification of the node-selection core of the greptimedb meta service,
together with two auxiliary routines of the HTTP server and the datanode
SQL handler. Rust code is shallowly embedded: enums become inductives,
structs become structures, `Result` becomes `Except`, `Option` stays
`Option`, and `u64`/`usize` become `Nat`.
-/

namespace MetaSrv

/-- `pub type Namespace = u64;` from `meta-srv/src/selector.rs`. -/
abbrev Namespace : Type := Nat

/-- Error values of the meta service that this development needs: the
`UnsupportedSelectorType` variant built by `UnsupportedSelectorTypeSnafu`
in `selector.rs` carries the offending string, and `NoAvailablePeer` is
the exhaustion condition of a selector. -/
inductive MetaError where
  | UnsupportedSelectorType (selectorTy : String)
  | NoAvailablePeer
deriving DecidableEq, Repr

/-- The `SelectorType` enum of `meta-srv/src/selector.rs`. -/
inductive SelectorType where
  | LoadBased
  | LeaseBased
deriving DecidableEq, Repr

/-- `impl TryFrom<&str> for SelectorType` from `selector.rs`: a match on
the string with arms for `"LoadBased"` and `"LeaseBased"`, any other
string failing with `UnsupportedSelectorType` carrying that string. -/
def SelectorType.tryFrom (value : String) : Except MetaError SelectorType :=
  if value = "LoadBased" then .ok .LoadBased
  else if value = "LeaseBased" then .ok .LeaseBased
  else .error (.UnsupportedSelectorType value)

/-- The string `#[derive(Serialize)]` emits for each unit variant of
`SelectorType`: the variant's own name. -/
def SelectorType.serializedName : SelectorType → String
  | .LoadBased => "LoadBased"
  | .LeaseBased => "LeaseBased"

/-- `impl Default for SelectorType` from `selector.rs`. -/
def SelectorType.defaultType : SelectorType := SelectorType.LeaseBased

/-- The two concrete selector values a `SelectorRef` can hold:
`Arc::new(LoadBasedSelector)` or `Arc::new(LeaseBasedSelector)`. -/
inductive SelectorInstance where
  | loadBasedSelector
  | leaseBasedSelector
deriving DecidableEq, Repr

/-- `impl From<SelectorType> for SelectorRef` from `selector.rs`: the
factory mapping each strategy tag to its concrete selector. -/
def selectorRefFrom : SelectorType → SelectorInstance
  | .LoadBased => .loadBasedSelector
  | .LeaseBased => .leaseBasedSelector

/-- A worker node identity: numeric id plus network address, immutable
once assigned (spec §3 Peer). -/
structure Peer where
  id : Nat
  addr : String
deriving DecidableEq, Repr

/-- Modelled from the spec: the per-peer lease record of the Lease
Registry (spec §3 Lease) — the registry implementation is not under
`src/`. `expireTime` is the absolute deadline after which the peer is
dead; `loadScore` is the scalar load score the load-based strategy
derives from `load_stats` (lower = more capacity, spec §4.4). -/
structure Lease where
  expireTime : Nat
  loadScore : Nat
deriving DecidableEq, Repr

/-- One row of the registry: a peer registered under a namespace with
its current lease. -/
structure LeaseEntry where
  ns : Namespace
  peer : Peer
  lease : Lease
deriving DecidableEq, Repr

/-- Modelled from the spec: the Lease Registry state, a single logical
table keyed by (namespace, peer identity) (spec §3, §4.1). -/
abbrev Registry := List LeaseEntry

/-- Modelled from the spec: `snapshot(namespace)` of the Lease Registry
(spec §4.1) — the entries of the namespace whose `expire_time > now` at
the time of the call. -/
def snapshot (reg : Registry) (ns : Namespace) (now : Nat) : List LeaseEntry :=
  reg.filter (fun e => e.ns == ns && decide (now < e.lease.expireTime))

/-- Modelled from the spec: `renew(peer, load_stats, ttl)` of the Lease
Registry (spec §4.1) — insert or update the lease of `p` under `ns`,
setting `expire_time = now + ttl`, except that a renewal whose computed
new deadline is not later than the recorded one is ignored (clock skew
or reordered heartbeats must not shorten a lease). -/
def renew : Registry → Namespace → Peer → Nat → Nat → Nat → Registry
  | [], ns, p, stats, ttl, now => [⟨ns, p, ⟨now + ttl, stats⟩⟩]
  | e :: rest, ns, p, stats, ttl, now =>
    if e.ns = ns ∧ e.peer.id = p.id then
      if e.lease.expireTime < now + ttl then
        ⟨e.ns, e.peer, ⟨now + ttl, stats⟩⟩ :: rest
      else
        e :: rest
    else
      e :: renew rest ns p stats ttl now

/-- One heartbeat-driven renewal request: the arguments of one `renew`
call. -/
structure RenewCall where
  ns : Namespace
  peer : Peer
  stats : Nat
  ttl : Nat
  now : Nat
deriving Repr

/-- A sequence of `renew` calls applied in arrival order. -/
def applyRenews (reg : Registry) (calls : List RenewCall) : Registry :=
  calls.foldl (fun r c => renew r c.ns c.peer c.stats c.ttl c.now) reg

/-- The recorded lease of the peer with id `pid` under namespace `ns`,
if any. -/
def findLease : Registry → Namespace → Nat → Option Lease
  | [], _, _ => none
  | e :: rest, ns, pid =>
    if e.ns = ns ∧ e.peer.id = pid then some e.lease else findLease rest ns pid

/-- Modelled from the spec: the strategy-specific auxiliary input of one
`select` call (spec §3 SelectorContext) — requested replica count,
exclusion list of peer ids, and the round-robin cursor of the
lease-based rotation policy (spec §4.3). -/
structure SelectorContext where
  replicas : Nat
  excluded : List Nat
  cursor : Nat
deriving Repr

/-- The filtered, eligible peer set of one `select` call: the live
snapshot of the namespace minus the context's exclusion set (spec §4.3,
§4.4). -/
def eligiblePeers (reg : Registry) (ns : Namespace) (now : Nat)
    (ctx : SelectorContext) : List LeaseEntry :=
  (snapshot reg ns now).filter (fun e => !(ctx.excluded.contains e.peer.id))

/-- The load-based ranking order (spec §4.4): ascending by load score,
with peer identity as the tie-break. -/
def scoreLe (a b : LeaseEntry) : Prop :=
  a.lease.loadScore < b.lease.loadScore ∨
    (a.lease.loadScore = b.lease.loadScore ∧ a.peer.id ≤ b.peer.id)

instance : DecidableRel scoreLe := fun a b =>
  decidable_of_iff
    (a.lease.loadScore < b.lease.loadScore ∨
      (a.lease.loadScore = b.lease.loadScore ∧ a.peer.id ≤ b.peer.id))
    Iff.rfl

instance : IsTotal LeaseEntry scoreLe :=
  ⟨fun a b => by unfold scoreLe; omega⟩

instance : IsTrans LeaseEntry scoreLe :=
  ⟨fun a b c hab hbc => by unfold scoreLe at hab hbc ⊢; omega⟩

/-- Modelled from the spec: `LoadBasedSelector::select` (spec §4.4, the
`load_based` module is not under `src/`) — take the live snapshot,
drop excluded peers, fail with `NoAvailablePeer` when nothing remains,
otherwise sort ascending by score with peer-identity tie-break and take
the lowest-scoring `replicas` peers (as many as available when fewer
exist). -/
def loadSelect (reg : Registry) (ns : Namespace) (now : Nat)
    (ctx : SelectorContext) : Except MetaError (List LeaseEntry) :=
  let el := eligiblePeers reg ns now ctx
  if el.isEmpty then .error .NoAvailablePeer
  else .ok ((List.insertionSort scoreLe el).take ctx.replicas)

/-- Modelled from the spec: `LeaseBasedSelector::select` (spec §4.3, the
`lease_based` module is not under `src/`) — take the live snapshot,
drop excluded peers, fail with `NoAvailablePeer` when nothing remains,
otherwise choose `replicas` peers by the round-robin rotation policy
starting at the context's cursor, ignoring load. -/
def leaseSelect (reg : Registry) (ns : Namespace) (now : Nat)
    (ctx : SelectorContext) : Except MetaError (List LeaseEntry) :=
  let el := eligiblePeers reg ns now ctx
  if el.isEmpty then .error .NoAvailablePeer
  else .ok ((el.rotate ctx.cursor).take ctx.replicas)

end MetaSrv

namespace Http

/-- The `ColumnSchema` struct of `servers/src/http.rs`: column name and
the name of its data type. -/
structure ColumnSchema where
  name : String
  data_ty : String
deriving DecidableEq, Repr

/-- The `Schema` struct of `servers/src/http.rs`. -/
structure Schema where
  column_schemas : List ColumnSchema
deriving DecidableEq, Repr

/-- The `HttpRecordsOutput` struct of `servers/src/http.rs`,
parametrized by the JSON value type of its rows. -/
structure HttpRecordsOutput (V : Type) where
  schema : Option Schema
  rows : List (List V)
deriving DecidableEq

/-- A recordbatch column schema as `http.rs` reads it: the column name
and the string `cs.data_type.name()` evaluates to. -/
structure RBColumnSchema where
  name : String
  data_ty_name : String
deriving DecidableEq, Repr

/-- The schema of a recordbatch. -/
structure RBSchema where
  column_schemas : List RBColumnSchema
deriving DecidableEq, Repr

/-- A recordbatch as `http.rs` consumes it: its schema and its rows of
field values of type `F` (each converted to a JSON value by
`Value::try_from`, which may fail). -/
structure RecordBatch (F : Type) where
  schema : RBSchema
  rows : List (List F)

/-- `HttpRecordsOutput::num_rows` from `http.rs`. -/
def HttpRecordsOutput.num_rows {V : Type} (o : HttpRecordsOutput V) : Nat :=
  o.rows.length

/-- `HttpRecordsOutput::num_cols` from `http.rs`: the column count of
the schema, or 0 when the schema is absent. -/
def HttpRecordsOutput.num_cols {V : Type} (o : HttpRecordsOutput V) : Nat :=
  (o.schema.map (fun x => x.column_schemas.length)).getD 0

/-- `impl TryFrom<Vec<RecordBatch>> for HttpRecordsOutput` from
`http.rs`: an empty batch list yields no schema and no rows; otherwise
the schema is taken from the first batch and every row of every batch is
converted field-by-field by `conv` (the `Value::try_from` conversion),
short-circuiting on the first conversion error. -/
def httpRecordsOutputTryFrom {F V : Type} (conv : F → Except String V) :
    List (RecordBatch F) → Except String (HttpRecordsOutput V)
  | [] => .ok ⟨none, []⟩
  | first :: rest =>
    let schema : Schema :=
      ⟨first.schema.column_schemas.map (fun cs => ⟨cs.name, cs.data_ty_name⟩)⟩
    match (first :: rest).mapM (fun rb => rb.rows.mapM (fun row => row.mapM conv)) with
    | .error e => .error e
    | .ok rowss => .ok ⟨some schema, rowss.flatten⟩

end Http

namespace Datanode

/-- The subset of `sql::ast::Value` this development needs; only the
`Placeholder` variant is inspected by the code under `src/`. -/
inductive SqlValue where
  | Number (s : String)
  | SingleQuotedString (s : String)
  | Boolean (b : Bool)
  | Null
  | Placeholder (s : String)
deriving DecidableEq, Repr

/-- `replace_default` from `datanode/src/sql/insert.rs`: true exactly on
a placeholder whose lowercase form is `"default"`. -/
def replace_default (v : SqlValue) : Bool :=
  match v with
  | .Placeholder s => s.toLower == "default"
  | _ => false

/-- The `datatypes` `ColumnSchema` as `insert.rs` uses it: a name and an
opaque data type tag. -/
structure ColumnSchema where
  name : String
  data_ty : String
deriving DecidableEq, Repr

/-- The table as `insert_to_request` reads it: its schema's column
schemas. -/
structure Table where
  schema : List ColumnSchema
deriving DecidableEq, Repr

/-- The `TableReference` of `table::engine`: catalog, schema and table
names. -/
structure TableReference where
  catalog : String
  schema : String
  table : String
deriving DecidableEq, Repr

/-- The `Insert` statement as `insert_to_request` consumes it: the
stated column names and the value rows (`stmt.values()` returns a
`Result`, modelled as `Option`; `none` is its failure). -/
structure InsertStmt where
  columns : List String
  values : Option (List (List SqlValue))
deriving DecidableEq, Repr

/-- The external conversion routines `insert.rs` calls, which live
outside `src/`: `sql_value_to_value` (given column name, data type and
value) and `ColumnSchema::create_default` (a `Result<Option<Value>>`).
`W` is the runtime value type they produce. -/
structure InsertEnv (W : Type) where
  sql_value_to_value : String → String → SqlValue → Except String W
  create_default : ColumnSchema → Except Unit (Option W)

/-- The error variants of `datanode::error` reachable from
`insert_to_request`. -/
inductive InsertError where
  | ParseSqlValue
  | Catalog
  | TableNotFound (table_name : String)
  | ColumnNotFound (table_name : String) (column_name : String)
  | ColumnValuesNumberMismatch (columns : Nat) (values : Nat)
  | ColumnDefaultValue (column : String)
  | ColumnNoneDefaultValue (column : String)
  | ParseSql (msg : String)
deriving DecidableEq, Repr

/-- The `InsertRequest` built on success: names plus the per-column
value vectors produced by the builders. -/
structure InsertRequest (W : Type) where
  catalog_name : String
  schema_name : String
  table_name : String
  columns_values : List (String × List W)
deriving DecidableEq

/-- `add_row_to_vector` from `insert.rs`: push one SQL value (or the
column's default when it is the `"default"` placeholder) onto a column
builder. -/
def add_row_to_vector {W : Type} (env : InsertEnv W) (cs : ColumnSchema)
    (v : SqlValue) (builder : List W) : Except InsertError (List W) :=
  if replace_default v then
    match env.create_default cs with
    | .error _ => .error (.ColumnDefaultValue cs.name)
    | .ok none => .error (.ColumnNoneDefaultValue cs.name)
    | .ok (some w) => .ok (builder ++ [w])
  else
    match env.sql_value_to_value cs.name cs.data_ty v with
    | .error m => .error (.ParseSql m)
    | .ok w => .ok (builder ++ [w])

/-- The inner loop of `insert_to_request` over one row: zip the row's
values with the column builders and push each value in order. -/
def addRow {W : Type} (env : InsertEnv W) :
    List SqlValue → List (ColumnSchema × List W) →
      Except InsertError (List (ColumnSchema × List W))
  | [], bs => .ok bs
  | _ :: _, [] => .ok []
  | v :: vs, (cs, b) :: bs =>
    match add_row_to_vector env cs v b with
    | .error e => .error e
    | .ok b2 =>
      match addRow env vs bs with
      | .error e => .error e
      | .ok rest => .ok ((cs, b2) :: rest)

/-- The builder-construction step of `insert_to_request`: one builder
per schema column when no columns are stated, else one per stated
column name resolved against the schema (`ColumnNotFound` on a miss). -/
def columns_builders {W : Type} (columns : List String)
    (schema : List ColumnSchema) (tbl : String) :
    Except InsertError (List (ColumnSchema × List W)) :=
  if columns.isEmpty then
    .ok (schema.map (fun cs => (cs, ([] : List W))))
  else
    columns.mapM (fun cn =>
      match schema.find? (fun cs => cs.name == cn) with
      | none => .error (.ColumnNotFound tbl cn)
      | some cs => .ok ((cs, ([] : List W))))

/-- The row loop of `insert_to_request`: for each row, first `ensure!`
its length equals the target column count (else
`ColumnValuesNumberMismatch`), then push its values onto the builders. -/
def processRows {W : Type} (env : InsertEnv W) (columns_num : Nat) :
    List (List SqlValue) → List (ColumnSchema × List W) →
      Except InsertError (List (ColumnSchema × List W))
  | [], bs => .ok bs
  | row :: rest, bs =>
    if row.length = columns_num then
      match addRow env row bs with
      | .error e => .error e
      | .ok bs2 => processRows env columns_num rest bs2
    else
      .error (.ColumnValuesNumberMismatch columns_num row.length)

/-- `SqlHandler::insert_to_request` from `datanode/src/sql/insert.rs`,
with the catalog lookup result passed in (`catalogTable` models
`catalog_manager.table(...)`, a `Result<Option<_>>`). -/
def insert_to_request {W : Type} (env : InsertEnv W)
    (catalogTable : Except Unit (Option Table)) (stmt : InsertStmt)
    (tref : TableReference) : Except InsertError (InsertRequest W) := do
  let values ← match stmt.values with
    | none => Except.error InsertError.ParseSqlValue
    | some v => Except.ok v
  let table ← match catalogTable with
    | .error _ => Except.error InsertError.Catalog
    | .ok none => Except.error (InsertError.TableNotFound tref.table)
    | .ok (some t) => Except.ok t
  let columns_num :=
    if stmt.columns.isEmpty then table.schema.length else stmt.columns.length
  let bs0 ← columns_builders stmt.columns table.schema tref.table
  let final ← processRows env columns_num values bs0
  .ok ⟨tref.catalog, tref.schema, tref.table,
    final.map (fun p => (p.1.name, p.2))⟩

/-- A total environment for concrete evaluation: every SQL value
converts and every column has a default. -/
def unitEnv : InsertEnv Unit :=
  ⟨fun _ _ _ => .ok (), fun _ => .ok (some ())⟩

end Datanode

namespace MetaSrv

/-- C1: parsing a string as a `SelectorType` succeeds exactly on the two
strings `"LeaseBased"` and `"LoadBased"`, yielding the matching variant;
every other string fails with `UnsupportedSelectorType` carrying the
offending string. -/
theorem selectorType_tryFrom_spec (s : String) :
    (SelectorType.tryFrom "LeaseBased" = .ok .LeaseBased) ∧
    (SelectorType.tryFrom "LoadBased" = .ok .LoadBased) ∧
    ((∃ t, SelectorType.tryFrom s = .ok t) ↔ (s = "LeaseBased" ∨ s = "LoadBased")) ∧
    (s ≠ "LeaseBased" → s ≠ "LoadBased" →
      SelectorType.tryFrom s = .error (.UnsupportedSelectorType s)) := by
  refine ⟨rfl, rfl, ?_, ?_⟩
  · constructor
    · rintro ⟨t, ht⟩
      by_cases h1 : s = "LoadBased"
      · exact Or.inr h1
      · by_cases h2 : s = "LeaseBased"
        · exact Or.inl h2
        · simp [SelectorType.tryFrom, h1, h2] at ht
    · rintro (h | h) <;> subst h <;> exact ⟨_, rfl⟩
  · intro h1 h2
    simp [SelectorType.tryFrom, h1, h2]

/-- Closed witness for `selectorType_tryFrom_spec` at the concrete string
`"unknow"` used by the source's own test. -/
theorem selectorType_tryFrom_spec_witness :
    SelectorType.tryFrom "unknow" = .error (.UnsupportedSelectorType "unknow") :=
  (selectorType_tryFrom_spec "unknow").2.2.2 (by decide) (by decide)

/-- C2: round-trip of the two canonical selector strings: parsing
`"LeaseBased"` or `"LoadBased"` and serializing the resulting variant
yields the original string back. -/
theorem selectorType_roundtrip :
    Except.map SelectorType.serializedName (SelectorType.tryFrom "LeaseBased") =
      .ok "LeaseBased" ∧
    Except.map SelectorType.serializedName (SelectorType.tryFrom "LoadBased") =
      .ok "LoadBased" := by
  exact ⟨rfl, rfl⟩

/-- C3: the default `SelectorType`, used when no selector strategy is
configured, is `LeaseBased`. -/
theorem selectorType_default_leaseBased :
    SelectorType.defaultType = SelectorType.LeaseBased := rfl

/-- C4: the selector factory is total on `SelectorType` — the enum is the
closed two-element set, and the factory maps `LoadBased` to the
load-based selector and `LeaseBased` to the lease-based selector, never
failing. -/
theorem selectorRefFrom_total :
    (selectorRefFrom .LoadBased = .loadBasedSelector) ∧
    (selectorRefFrom .LeaseBased = .leaseBasedSelector) ∧
    (∀ t : SelectorType, t = .LoadBased ∨ t = .LeaseBased) := by
  refine ⟨rfl, rfl, ?_⟩
  intro t
  cases t
  · exact Or.inl rfl
  · exact Or.inr rfl

theorem mem_snapshot {reg : Registry} {ns : Namespace} {now : Nat} {e : LeaseEntry} :
    e ∈ snapshot reg ns now ↔ e ∈ reg ∧ e.ns = ns ∧ now < e.lease.expireTime := by
  simp [snapshot, List.mem_filter, and_assoc]

theorem mem_eligible {reg : Registry} {ns : Namespace} {now : Nat}
    {ctx : SelectorContext} {e : LeaseEntry}
    (h : e ∈ eligiblePeers reg ns now ctx) : e ∈ snapshot reg ns now := by
  simp only [eligiblePeers, List.mem_filter] at h
  exact h.1

theorem loadSelect_ok {reg : Registry} {ns : Namespace} {now : Nat}
    {ctx : SelectorContext} {r : List LeaseEntry}
    (h : loadSelect reg ns now ctx = .ok r) :
    r = (List.insertionSort scoreLe (eligiblePeers reg ns now ctx)).take ctx.replicas := by
  unfold loadSelect at h
  by_cases he : (eligiblePeers reg ns now ctx).isEmpty = true
  · simp [he] at h
  · simp [he] at h
    exact h.symm

theorem leaseSelect_ok {reg : Registry} {ns : Namespace} {now : Nat}
    {ctx : SelectorContext} {r : List LeaseEntry}
    (h : leaseSelect reg ns now ctx = .ok r) :
    r = ((eligiblePeers reg ns now ctx).rotate ctx.cursor).take ctx.replicas := by
  unfold leaseSelect at h
  by_cases he : (eligiblePeers reg ns now ctx).isEmpty = true
  · simp [he] at h
  · simp [he] at h
    exact h.symm

/-- C5: when the filtered, eligible peer set of a namespace is empty
(empty namespace, fully-expired leases, or everything excluded), both
selector strategies return the `NoAvailablePeer` error and in particular
never return a successful result there. -/
theorem select_empty_noAvailablePeer (reg : Registry) (ns : Namespace) (now : Nat)
    (ctx : SelectorContext) (h : eligiblePeers reg ns now ctx = []) :
    leaseSelect reg ns now ctx = .error .NoAvailablePeer ∧
    loadSelect reg ns now ctx = .error .NoAvailablePeer ∧
    (∀ r : List LeaseEntry,
      leaseSelect reg ns now ctx ≠ .ok r ∧ loadSelect reg ns now ctx ≠ .ok r) := by
  have h2 : (eligiblePeers reg ns now ctx).isEmpty = true := by rw [h]; rfl
  refine ⟨?_, ?_, ?_⟩
  · simp [leaseSelect, h2]
  · simp [loadSelect, h2]
  · intro r
    constructor <;> simp [leaseSelect, loadSelect, h2]

/-- Closed witness for `select_empty_noAvailablePeer`: the spec scenario
of the empty namespace 7. -/
theorem select_empty_noAvailablePeer_witness :
    leaseSelect [] 7 0 ⟨1, [], 0⟩ = .error .NoAvailablePeer ∧
    loadSelect [] 7 0 ⟨1, [], 0⟩ = .error .NoAvailablePeer :=
  ⟨(select_empty_noAvailablePeer [] 7 0 ⟨1, [], 0⟩ rfl).1,
   (select_empty_noAvailablePeer [] 7 0 ⟨1, [], 0⟩ rfl).2.1⟩

/-- C6: a successful load-based selection is sorted ascending by load
score with peer-identity tie-break, has length `min replicas |eligible|`,
draws only from the eligible set, and is score-minimal in it (every
eligible peer left out ranks at or above every chosen one); in the
spec's scenario {A: 5, B: 2, C: 9} under namespace 1 with 2 replicas it
returns [B, A]. -/
theorem loadSelect_lowest_scores :
    (∀ (reg : Registry) (ns : Namespace) (now : Nat) (ctx : SelectorContext)
      (r : List LeaseEntry),
      loadSelect reg ns now ctx = .ok r →
      List.Sorted scoreLe r ∧
      r.length = min ctx.replicas (eligiblePeers reg ns now ctx).length ∧
      (∀ a ∈ r, a ∈ eligiblePeers reg ns now ctx) ∧
      (∀ a ∈ r, ∀ b ∈ eligiblePeers reg ns now ctx, b ∉ r → scoreLe a b)) ∧
    loadSelect
      [⟨1, ⟨1, "A"⟩, ⟨10, 5⟩⟩, ⟨1, ⟨2, "B"⟩, ⟨10, 2⟩⟩, ⟨1, ⟨3, "C"⟩, ⟨10, 9⟩⟩]
      1 0 ⟨2, [], 0⟩ =
      .ok [⟨1, ⟨2, "B"⟩, ⟨10, 2⟩⟩, ⟨1, ⟨1, "A"⟩, ⟨10, 5⟩⟩] := by
  constructor
  · intro reg ns now ctx r h
    have hr := loadSelect_ok h
    subst hr
    have hsorted : List.Sorted scoreLe
        (List.insertionSort scoreLe (eligiblePeers reg ns now ctx)) :=
      List.sorted_insertionSort scoreLe _
    refine ⟨?_, ?_, ?_, ?_⟩
    · exact List.Pairwise.sublist (List.take_sublist _ _) hsorted
    · rw [List.length_take, List.length_insertionSort]
    · intro a ha
      exact (List.mem_insertionSort _).1 (List.take_subset _ _ ha)
    · intro a ha b hb hbr
      have hbL : b ∈ List.insertionSort scoreLe (eligiblePeers reg ns now ctx) :=
        (List.mem_insertionSort _).2 hb
      have hsplit :
          (List.insertionSort scoreLe (eligiblePeers reg ns now ctx)).take ctx.replicas ++
            (List.insertionSort scoreLe (eligiblePeers reg ns now ctx)).drop ctx.replicas =
            List.insertionSort scoreLe (eligiblePeers reg ns now ctx) :=
        List.take_append_drop _ _
      have hbd : b ∈ (List.insertionSort scoreLe
          (eligiblePeers reg ns now ctx)).drop ctx.replicas := by
        rcases List.mem_append.1 (by rw [hsplit]; exact hbL) with h1 | h1
        · exact absurd h1 hbr
        · exact h1
      have hpw : List.Pairwise scoreLe
          ((List.insertionSort scoreLe (eligiblePeers reg ns now ctx)).take ctx.replicas ++
            (List.insertionSort scoreLe (eligiblePeers reg ns now ctx)).drop ctx.replicas) := by
        rw [hsplit]; exact hsorted
      exact (List.pairwise_append.1 hpw).2.2 a ha b hbd
  · rfl

/-- Closed witness for `loadSelect_lowest_scores` at the spec scenario:
the selected pair [B, A] is sorted by the load order. -/
theorem loadSelect_lowest_scores_witness :
    List.Sorted scoreLe [⟨1, ⟨2, "B"⟩, ⟨10, 2⟩⟩, ⟨1, ⟨1, "A"⟩, ⟨10, 5⟩⟩] :=
  (loadSelect_lowest_scores.1
    [⟨1, ⟨1, "A"⟩, ⟨10, 5⟩⟩, ⟨1, ⟨2, "B"⟩, ⟨10, 2⟩⟩, ⟨1, ⟨3, "C"⟩, ⟨10, 9⟩⟩]
    1 0 ⟨2, [], 0⟩ _ loadSelect_lowest_scores.2).1

/-- C7: a peer whose lease has `expire_time <= now` appears in no
snapshot and in no successful result of either selection strategy. -/
theorem expired_never_selected (reg : Registry) (ns : Namespace) (now : Nat)
    (ctx : SelectorContext) (e : LeaseEntry) (h : e.lease.expireTime ≤ now) :
    e ∉ snapshot reg ns now ∧
    (∀ r, leaseSelect reg ns now ctx = .ok r → e ∉ r) ∧
    (∀ r, loadSelect reg ns now ctx = .ok r → e ∉ r) := by
  have hsnap : e ∉ snapshot reg ns now := by
    intro hmem
    have := (mem_snapshot.1 hmem).2.2
    omega
  refine ⟨hsnap, ?_, ?_⟩
  · intro r hr hmem
    rw [leaseSelect_ok hr] at hmem
    have h1 := List.take_subset _ _ hmem
    have h2 : e ∈ eligiblePeers reg ns now ctx := List.mem_rotate.1 h1
    exact hsnap (mem_eligible h2)
  · intro r hr hmem
    rw [loadSelect_ok hr] at hmem
    have h1 := List.take_subset _ _ hmem
    have h2 : e ∈ eligiblePeers reg ns now ctx := (List.mem_insertionSort _).1 h1
    exact hsnap (mem_eligible h2)

/-- Closed witness for `expired_never_selected`: the spec scenario of
peer D with a lease renewed at t=0 for ttl=10, queried at t=11. -/
theorem expired_never_selected_witness :
    (⟨1, ⟨4, "D"⟩, ⟨10, 0⟩⟩ : LeaseEntry) ∉
      snapshot [⟨1, ⟨4, "D"⟩, ⟨10, 0⟩⟩] 1 11 :=
  (expired_never_selected [⟨1, ⟨4, "D"⟩, ⟨10, 0⟩⟩] 1 11 ⟨1, [], 0⟩
    ⟨1, ⟨4, "D"⟩, ⟨10, 0⟩⟩ (by decide)).1

theorem findLease_renew_mono (reg : Registry) :
    ∀ (ns : Namespace) (p : Peer) (stats ttl now : Nat) (ns2 pid : Nat) (l : Lease),
      findLease reg ns2 pid = some l →
      ∃ l2, findLease (renew reg ns p stats ttl now) ns2 pid = some l2 ∧
        l.expireTime ≤ l2.expireTime := by
  induction reg with
  | nil =>
    intro ns p stats ttl now ns2 pid l h
    simp [findLease] at h
  | cons e rest ih =>
    intro ns p stats ttl now ns2 pid l h
    by_cases hm : e.ns = ns ∧ e.peer.id = p.id
    · by_cases hexp : e.lease.expireTime < now + ttl
      · by_cases hp : e.ns = ns2 ∧ e.peer.id = pid
        · rw [findLease, if_pos hp] at h
          refine ⟨⟨now + ttl, stats⟩, ?_, ?_⟩
          · rw [renew, if_pos hm, if_pos hexp, findLease, if_pos hp]
          · injection h with h
            subst h
            exact Nat.le_of_lt hexp
        · rw [findLease, if_neg hp] at h
          refine ⟨l, ?_, le_refl _⟩
          rw [renew, if_pos hm, if_pos hexp, findLease, if_neg hp]
          exact h
      · refine ⟨l, ?_, le_refl _⟩
        rw [renew, if_pos hm, if_neg hexp]
        exact h
    · by_cases hp : e.ns = ns2 ∧ e.peer.id = pid
      · rw [findLease, if_pos hp] at h
        refine ⟨l, ?_, le_refl _⟩
        rw [renew, if_neg hm, findLease, if_pos hp]
        exact h
      · rw [findLease, if_neg hp] at h
        obtain ⟨l2, h2, hle⟩ := ih ns p stats ttl now ns2 pid l h
        refine ⟨l2, ?_, hle⟩
        rw [renew, if_neg hm, findLease, if_neg hp]
        exact h2

theorem findLease_renew_ignored (reg : Registry) :
    ∀ (ns : Namespace) (p : Peer) (stats ttl now : Nat) (l : Lease),
      findLease reg ns p.id = some l →
      now + ttl ≤ l.expireTime →
      renew reg ns p stats ttl now = reg := by
  induction reg with
  | nil =>
    intro ns p stats ttl now l h
    simp [findLease] at h
  | cons e rest ih =>
    intro ns p stats ttl now l h hle
    by_cases hm : e.ns = ns ∧ e.peer.id = p.id
    · rw [findLease, if_pos hm] at h
      injection h with h
      subst h
      rw [renew, if_pos hm, if_neg (by omega)]
    · rw [findLease, if_neg hm] at h
      rw [renew, if_neg hm, ih ns p stats ttl now l h hle]

/-- C8: over any sequence of `renew` calls, the recorded `expire_time`
of a peer's lease is non-decreasing, and a renewal whose computed new
deadline `now + ttl` is not later than the recorded one leaves the
registry unchanged (the out-of-order renewal is ignored). -/
theorem renew_monotonic :
    (∀ (calls : List RenewCall) (reg : Registry) (ns : Namespace) (pid : Nat)
      (l l2 : Lease),
      findLease reg ns pid = some l →
      findLease (applyRenews reg calls) ns pid = some l2 →
      l.expireTime ≤ l2.expireTime) ∧
    (∀ (reg : Registry) (ns : Namespace) (p : Peer) (stats ttl now : Nat) (l : Lease),
      findLease reg ns p.id = some l →
      now + ttl ≤ l.expireTime →
      renew reg ns p stats ttl now = reg) := by
  constructor
  · intro calls
    induction calls with
    | nil =>
      intro reg ns pid l l2 h1 h2
      rw [applyRenews, List.foldl_nil, h1] at h2
      injection h2 with h2
      rw [h2]
    | cons c cs ih =>
      intro reg ns pid l l2 h1 h2
      obtain ⟨lmid, hmid, hle⟩ :=
        findLease_renew_mono reg c.ns c.peer c.stats c.ttl c.now ns pid l h1
      have h2b : findLease
          (applyRenews (renew reg c.ns c.peer c.stats c.ttl c.now) cs) ns pid =
          some l2 := by
        rw [applyRenews] at h2 ⊢
        rw [List.foldl_cons] at h2
        exact h2
      exact le_trans hle (ih _ ns pid lmid l2 hmid h2b)
  · exact fun reg ns p stats ttl now l h hle =>
      findLease_renew_ignored reg ns p stats ttl now l h hle

/-- Closed witness for `renew_monotonic`: peer 1 renewed to deadline 10,
then hit by a late renewal computing deadline 5, keeps deadline 10 and
the late renewal leaves the registry unchanged. -/
theorem renew_monotonic_witness :
    (10 : Nat) ≤ (10 : Nat) ∧
    renew [⟨1, ⟨1, "d"⟩, ⟨10, 0⟩⟩] 1 ⟨1, "d"⟩ 0 3 2 = [⟨1, ⟨1, "d"⟩, ⟨10, 0⟩⟩] :=
  ⟨renew_monotonic.1 [⟨1, ⟨1, "d"⟩, 0, 3, 2⟩] [⟨1, ⟨1, "d"⟩, ⟨10, 0⟩⟩] 1 1
      ⟨10, 0⟩ ⟨10, 0⟩ rfl rfl,
   renew_monotonic.2 [⟨1, ⟨1, "d"⟩, ⟨10, 0⟩⟩] 1 ⟨1, "d"⟩ 0 3 2 ⟨10, 0⟩ rfl
      (by decide)⟩

end MetaSrv

namespace Http

/-- C9: converting an empty list of record batches to an HTTP records
output succeeds with no schema and zero rows; on that output,
`num_rows` and `num_cols` are both 0, and `num_cols` is 0 whenever the
schema is absent. -/
theorem httpRecordsOutput_empty (F V : Type) (conv : F → Except String V) :
    httpRecordsOutputTryFrom conv ([] : List (RecordBatch F)) =
      .ok (⟨none, []⟩ : HttpRecordsOutput V) ∧
    (⟨none, []⟩ : HttpRecordsOutput V).num_rows = 0 ∧
    (⟨none, []⟩ : HttpRecordsOutput V).num_cols = 0 ∧
    (∀ o : HttpRecordsOutput V, o.schema = none → o.num_cols = 0) := by
  refine ⟨rfl, rfl, rfl, ?_⟩
  intro o h
  simp [HttpRecordsOutput.num_cols, h]

/-- Closed witness for `httpRecordsOutput_empty` at `V = Unit`. -/
theorem httpRecordsOutput_empty_witness :
    (⟨none, []⟩ : HttpRecordsOutput Unit).num_cols = 0 :=
  (httpRecordsOutput_empty Unit Unit (fun _ => .ok ())).2.2.2 ⟨none, []⟩ rfl

end Http

namespace Datanode

theorem insert_to_request_eq {W : Type} (env : InsertEnv W)
    (cat : Except Unit (Option Table)) (stmt : InsertStmt)
    (tref : TableReference) (values : List (List SqlValue)) (table : Table)
    (hv : stmt.values = some values) (hc : cat = .ok (some table)) :
    insert_to_request env cat stmt tref =
      (columns_builders stmt.columns table.schema tref.table).bind (fun bs0 =>
        (processRows env
          (if stmt.columns.isEmpty then table.schema.length else stmt.columns.length)
          values bs0).bind (fun final =>
            .ok ⟨tref.catalog, tref.schema, tref.table,
              final.map (fun p => (p.1.name, p.2))⟩)) := by
  subst hc
  unfold insert_to_request
  rw [hv]
  rfl

theorem processRows_ok_lengths {W : Type} (env : InsertEnv W) (cn : Nat) :
    ∀ (rows : List (List SqlValue)) (bs bs2 : List (ColumnSchema × List W)),
      processRows env cn rows bs = .ok bs2 → ∀ row ∈ rows, row.length = cn := by
  intro rows
  induction rows with
  | nil =>
    intro bs bs2 h row hr
    simp at hr
  | cons r rest ih =>
    intro bs bs2 h row hr
    simp only [processRows] at h
    by_cases hl : r.length = cn
    · rw [if_pos hl] at h
      rcases List.mem_cons.1 hr with h1 | h1
      · rw [h1]; exact hl
      · match haddr : addRow env r bs with
        | .error e => rw [haddr] at h; simp at h
        | .ok bsm =>
          rw [haddr] at h
          exact ih bsm bs2 h row h1
    · rw [if_neg hl] at h
      simp at h

theorem processRows_append {W : Type} (env : InsertEnv W) (cn : Nat) :
    ∀ (pre rest : List (List SqlValue)) (bs : List (ColumnSchema × List W)),
      processRows env cn (pre ++ rest) bs =
        (processRows env cn pre bs).bind (fun bs2 => processRows env cn rest bs2) := by
  intro pre
  induction pre with
  | nil => intro rest bs; rfl
  | cons r pre ih =>
    intro rest bs
    rw [List.cons_append]
    simp only [processRows]
    by_cases hl : r.length = cn
    · rw [if_pos hl, if_pos hl]
      match haddr : addRow env r bs with
      | .error e => rfl
      | .ok bs2 => exact ih rest bs2
    · rw [if_neg hl, if_neg hl]
      rfl

/-- C10 (amended): `insert_to_request` produces an `Insert` request only
if every value row's length equals the target column count (the stated
column list's length, or the table's full column count when no columns
are listed); when a row's length differs the call always fails, and the
error is `ColumnValuesNumberMismatch` precisely when the earlier checks
pass — the statement's values parse, the table and every listed column
resolve, and every value of the rows before the first mismatched row
converts successfully. An earlier failure (such as a listed column
missing from the schema) takes precedence over the mismatch error. -/
theorem insert_to_request_mismatch {W : Type} (env : InsertEnv W)
    (cat : Except Unit (Option Table)) (stmt : InsertStmt)
    (tref : TableReference) (values : List (List SqlValue)) (table : Table)
    (hv : stmt.values = some values) (hc : cat = .ok (some table)) :
    (∀ req, insert_to_request env cat stmt tref = .ok req →
      ∀ row ∈ values,
        row.length =
          (if stmt.columns.isEmpty then table.schema.length else stmt.columns.length)) ∧
    (∀ (bs0 bs : List (ColumnSchema × List W)) (pre post : List (List SqlValue))
      (row : List SqlValue),
      columns_builders stmt.columns table.schema tref.table = .ok bs0 →
      values = pre ++ row :: post →
      processRows env
        (if stmt.columns.isEmpty then table.schema.length else stmt.columns.length)
        pre bs0 = .ok bs →
      row.length ≠
        (if stmt.columns.isEmpty then table.schema.length else stmt.columns.length) →
      insert_to_request env cat stmt tref =
        .error (.ColumnValuesNumberMismatch
          (if stmt.columns.isEmpty then table.schema.length else stmt.columns.length)
          row.length)) := by
  have heq := insert_to_request_eq env cat stmt tref values table hv hc
  constructor
  · intro req hok row hr
    rw [heq] at hok
    match hcb : columns_builders (W := W) stmt.columns table.schema tref.table with
    | .error e => rw [hcb] at hok; simp [Except.bind] at hok
    | .ok bs0 =>
      rw [hcb] at hok
      simp only [Except.bind] at hok
      match hpr : processRows env
          (if stmt.columns.isEmpty then table.schema.length else stmt.columns.length)
          values bs0 with
      | .error e => rw [hpr] at hok; simp at hok
      | .ok final =>
        exact processRows_ok_lengths env _ values bs0 final hpr row hr
  · intro bs0 bs pre post row hcb hsplit hpre hlen
    rw [heq, hcb]
    simp only [Except.bind]
    rw [hsplit, processRows_append, hpre]
    simp only [Except.bind]
    simp only [processRows]
    rw [if_neg hlen]

/-- Counterexample to C10 as stated: with one stated column `"nope"`
missing from the table's schema and a single value row of length 2
(differing from the target column count 1), `insert_to_request` fails
with `ColumnNotFound`, not `ColumnValuesNumberMismatch`, even though
the conversion environment is total. -/
theorem insert_to_request_mismatch_counterexample :
    insert_to_request unitEnv (Except.ok (some ⟨[⟨"x", "Int32"⟩]⟩))
        ⟨["nope"], some [[SqlValue.Null, SqlValue.Null]]⟩ ⟨"c", "s", "t"⟩ =
      .error (.ColumnNotFound "t" "nope") ∧
    ([SqlValue.Null, SqlValue.Null].length ≠
      (["nope"] : List String).length) ∧
    (InsertError.ColumnNotFound "t" "nope" ≠
      InsertError.ColumnValuesNumberMismatch 1 2) :=
  ⟨rfl, by decide, by decide⟩

/-- Closed witness for `insert_to_request_mismatch`: no stated columns,
a one-column table, rows [[Null], [Null, Null]]; the first row converts
and the second row's length 2 differs from the column count 1, so the
call fails with `ColumnValuesNumberMismatch 1 2`. -/
theorem insert_to_request_mismatch_witness :
    insert_to_request unitEnv (Except.ok (some ⟨[⟨"x", "Int32"⟩]⟩))
        ⟨[], some [[SqlValue.Null], [SqlValue.Null, SqlValue.Null]]⟩
        ⟨"c", "s", "t"⟩ =
      .error (.ColumnValuesNumberMismatch 1 2) :=
  (insert_to_request_mismatch unitEnv (Except.ok (some ⟨[⟨"x", "Int32"⟩]⟩))
      ⟨[], some [[SqlValue.Null], [SqlValue.Null, SqlValue.Null]]⟩
      ⟨"c", "s", "t"⟩ [[SqlValue.Null], [SqlValue.Null, SqlValue.Null]]
      ⟨[⟨"x", "Int32"⟩]⟩ rfl rfl).2
    [(⟨"x", "Int32"⟩, [])] [(⟨"x", "Int32"⟩, [()])] [[SqlValue.Null]] []
    [SqlValue.Null, SqlValue.Null] rfl rfl rfl (by decide)

end Datanode
